import Mathlib

/-!
Shallow embedding of the GOAP planner and OODA execution loop of
`src/goap-planner.js`.

Conventions of the embedding:
* A JS `Map` (and the plain objects used for preconditions, effects and
  goal propositions) is modelled as an association list in insertion
  order, `List (String × Bool)`; `Map.set` replaces the value in place
  when the key is present and appends otherwise, exactly as in JS.
* Proposition values are booleans, as in every scenario of the
  repository; `GOAPState.get` applies the `|| false` coercion of the
  source, so a missing key reads as `false`.
* Methods that mutate their receiver (`GOAPState.set`) are modelled as
  functions returning the receiver's value after the call; the JS
  method itself returns `undefined`, not a state.
* Code that can `throw` is modelled with `Except String`, the error
  carrying the thrown message.
-/

/-- JS `Map.prototype.set` on an insertion-ordered association list:
replace in place if the key exists, else append at the end. -/
def mapSet : List (String × Bool) → String → Bool → List (String × Bool)
  | [], k, v => [(k, v)]
  | (k', v') :: rest, k, v =>
    if k' = k then (k, v) :: rest else (k', v') :: mapSet rest k v

/-- Model of `GOAPState` (src/goap-planner.js:6-50): a world state, i.e. a JS `Map`
from proposition names to boolean values, kept in insertion order. -/
structure GOAPState where
  entries : List (String × Bool)
deriving DecidableEq, Repr

/-- Model of `GOAPState.get` (line 15-17): `this.state.get(key) || false` — the
stored value, with a missing key (and the falsy stored value `false`)
coerced to `false`. -/
def GOAPState.get (s : GOAPState) (key : String) : Bool :=
  (s.entries.lookup key).getD false

/-- Model of `GOAPState.set` (line 19-21): `this.state.set(key, value)`. The JS
method mutates the receiver in place and returns `undefined`; this
function gives the receiver's value after the call. -/
def GOAPState.set (s : GOAPState) (key : String) (value : Bool) : GOAPState :=
  ⟨mapSet s.entries key value⟩

/-- Model of `GOAPState.clone` (line 11-13): `new GOAPState(Object.fromEntries(this.state))`.
`Object.fromEntries` and `Object.entries` both preserve insertion order
and `Map` keys are unique, so the fresh object holds the same entries. -/
def GOAPState.clone (s : GOAPState) : GOAPState :=
  ⟨s.entries⟩

/-- Model of `GOAPState.satisfies` (line 23-27): every `[key, value]` of the
conditions object matches via `get` (strict equality on booleans). -/
def GOAPState.satisfies (s : GOAPState) (conditions : List (String × Bool)) : Bool :=
  conditions.all fun kv => s.get kv.1 == kv.2

/-- Model of `GOAPState.applyEffects` (line 29-35): clone, then `set` every effect
entry on the clone; the receiver is untouched. -/
def GOAPState.applyEffects (s : GOAPState) (effects : List (String × Bool)) : GOAPState :=
  effects.foldl (fun t kv => t.set kv.1 kv.2) s.clone

/-- Model of `GOAPState.getDistance` (line 37-45): number of goal propositions
whose value in `self` (via `get`) differs. -/
def GOAPState.getDistance (s : GOAPState) (goalState : GOAPState) : Nat :=
  (goalState.entries.filter fun kv => s.get kv.1 != kv.2).length

/-- JSON rendering of a boolean value. -/
def jsonBool (b : Bool) : String :=
  if b then "true" else "false"

/-- Model of `GOAPState.toString` (line 47-49):
`JSON.stringify(Object.fromEntries(this.state), null, 2)` — the entries
in insertion order, two-space indented, one per line.  Keys in this
repository contain no character requiring JSON escaping, so quoting is
plain. -/
def GOAPState.toString (s : GOAPState) : String :=
  match s.entries with
  | [] => "\x7b\x7d"
  | es =>
    "\x7b\n" ++
      String.intercalate ",\n"
        (es.map fun kv => "  \"" ++ kv.1 ++ "\": " ++ jsonBool kv.2) ++
      "\n\x7d"

/-- Model of `GOAPAction` (src/goap-planner.js:52-110): a named transition with
preconditions, effects, a cost and an execution-strategy tag.  The
`tools` and `fallback` fields are always `[]` and `null` and never read
by the planner or the loop, so they are omitted. -/
structure GOAPAction where
  name : String
  preconditions : List (String × Bool)
  effects : List (String × Bool)
  cost : Nat
  executionType : String
deriving DecidableEq, Repr

/-- Model of `GOAPAction.isApplicable` (line 63-65). -/
def GOAPAction.isApplicable (a : GOAPAction) (state : GOAPState) : Bool :=
  state.satisfies a.preconditions

/-- Model of `GOAPAction.apply` (line 67-72): throws when not applicable,
otherwise `state.applyEffects(this.effects)`. -/
def GOAPAction.apply (a : GOAPAction) (state : GOAPState) : Except String GOAPState :=
  if a.isApplicable state then
    .ok (state.applyEffects a.effects)
  else
    .error ("Action " ++ a.name ++ " not applicable in current state")

/-- Model of `GOAPNode` (src/goap-planner.js:112-131): a search node holding the
state reached, the action that produced it (`null` for the root), the
parent link, the accumulated cost `g`, the heuristic `h` and
`totalCost = f`.  The two construction sites (lines 152 and 189) set
`heuristic` and `totalCost` right after `new`, so the fields here hold
their final values. -/
inductive GOAPNode where
  | mk (state : GOAPState) (action : Option GOAPAction) (parent : Option GOAPNode)
      (cost : Nat) (heuristic : Nat) (totalCost : Nat)

def GOAPNode.state : GOAPNode → GOAPState
  | ⟨s, _, _, _, _, _⟩ => s

def GOAPNode.action : GOAPNode → Option GOAPAction
  | ⟨_, a, _, _, _, _⟩ => a

def GOAPNode.parent : GOAPNode → Option GOAPNode
  | ⟨_, _, p, _, _, _⟩ => p

def GOAPNode.cost : GOAPNode → Nat
  | ⟨_, _, _, c, _, _⟩ => c

def GOAPNode.totalCost : GOAPNode → Nat
  | ⟨_, _, _, _, _, t⟩ => t

/-- Model of `GOAPNode.getPath` (line 122-130): walk the parent chain collecting
the actions front-first.  A node with a parent always carries an action
(both construction sites set them together), so `Option.toList` drops
only the unreachable `null`-action case. -/
def GOAPNode.getPath : GOAPNode → List GOAPAction
  | ⟨_, a, parent, _, _, _⟩ =>
    match parent with
    | none => []
    | some p => p.getPath ++ a.toList

/-- Model of `GOAPPlanner` (src/goap-planner.js:133-270): the repertoire is a
name-keyed JS `Map`; search iterates `this.actions.values()`, i.e. the
actions in insertion order, which is what `actions` stores. -/
structure GOAPPlanner where
  actions : List GOAPAction
  maxSearchDepth : Nat
deriving Repr

/-- Model of `new GOAPPlanner()` (line 134-137). -/
def GOAPPlanner.new : GOAPPlanner :=
  ⟨[], 20⟩

/-- Model of `Map.set` keyed by action name on the values-in-insertion-order view:
re-adding a name overwrites in place, a new name is appended. -/
def addActionList : List GOAPAction → GOAPAction → List GOAPAction
  | [], a => [a]
  | b :: rest, a => if b.name = a.name then a :: rest else b :: addActionList rest a

/-- Model of `GOAPPlanner.addAction` (line 139-141). -/
def GOAPPlanner.addAction (p : GOAPPlanner) (a : GOAPAction) : GOAPPlanner :=
  ⟨addActionList p.actions a, p.maxSearchDepth⟩

/-- Stable insertion of a node into an ascending-by-`totalCost` list:
the node goes after every node of smaller or equal `totalCost`. -/
def insertNode (n : GOAPNode) : List GOAPNode → List GOAPNode
  | [] => [n]
  | m :: rest => if m.totalCost ≤ n.totalCost then m :: insertNode n rest else n :: m :: rest

/-- Model of `openSet.sort((a, b) => a.totalCost - b.totalCost)` (line 165): JS
`Array.prototype.sort` is stable, and the result of any stable sort is
determined by the input order alone, so this stable insertion sort
computes the same list. -/
def sortByTotalCost (l : List GOAPNode) : List GOAPNode :=
  l.foldl (fun acc n => insertNode n acc) []

/-- The successor-generation loop of `generatePlan` (line 182-195): for
every repertoire action, in order, that is applicable in the dequeued
node's state, apply it (this can only throw on an inapplicable action,
which the guard excludes), prune if the accumulated cost exceeds
`maxSearchDepth`, otherwise build the child node to be pushed. -/
def expandNode (actions : List GOAPAction) (current : GOAPNode) (goalState : GOAPState)
    (maxDepth : Nat) : Except String (List GOAPNode) :=
  match actions with
  | [] => .ok []
  | a :: rest =>
    if a.isApplicable current.state then
      match a.apply current.state with
      | .error e => .error e
      | .ok newState =>
        let newCost := current.cost + a.cost
        if maxDepth < newCost then
          expandNode rest current goalState maxDepth
        else
          match expandNode rest current goalState maxDepth with
          | .error e => .error e
          | .ok tail =>
            let h := newState.getDistance goalState
            .ok (⟨newState, some a, some current, newCost, h, newCost + h⟩ :: tail)
    else
      expandNode rest current goalState maxDepth

/-- The `while` loop of `generatePlan` (line 161-196), with
`fuel = maxIterations - iterations` making the iteration cap explicit:
sort the open set, dequeue the head, return its path if it satisfies
the goal, skip it if its serialized state is already closed, otherwise
close it and push its successors. -/
def searchLoop (planner : GOAPPlanner) (goalState : GOAPState) :
    List GOAPNode → List String → Nat → Except String (Option (List GOAPAction))
  | _, _, 0 => .ok none
  | openSet, closedSet, fuel + 1 =>
    match sortByTotalCost openSet with
    | [] => .ok none
    | current :: rest =>
      if current.state.satisfies goalState.entries then
        .ok (some current.getPath)
      else
        let stateKey := current.state.toString
        if closedSet.contains stateKey then
          searchLoop planner goalState rest closedSet fuel
        else
          match expandNode planner.actions current goalState planner.maxSearchDepth with
          | .error e => .error e
          | .ok newNodes =>
            searchLoop planner goalState (rest ++ newNodes) (stateKey :: closedSet) fuel

/-- Model of `GOAPPlanner.generatePlan` (line 146-200): A*-style best-first search
from `currentState` to `goalState`, `maxIterations = 1000`.  The JS
function returns a plan or `null` and can in principle propagate a
throw from `apply`; `Except.ok (some plan)`, `Except.ok none` and
`Except.error` model the three outcomes. -/
def GOAPPlanner.generatePlan (p : GOAPPlanner) (currentState goalState : GOAPState) :
    Except String (Option (List GOAPAction)) :=
  let h := currentState.getDistance goalState
  searchLoop p goalState [⟨currentState, none, none, 0, h, h⟩] [] 1000

/-- The per-strategy duration table of `estimateExecutionTime`
(line 260-264), with the `|| 100` default for unknown tags. -/
def baseTime (executionType : String) : Nat :=
  if executionType = "code" then 100
  else if executionType = "llm" then 200
  else if executionType = "hybrid" then 250
  else 100

/-- Model of `GOAPPlanner.estimateExecutionTime` (line 259-269). -/
def GOAPPlanner.estimateExecutionTime (_ : GOAPPlanner) (plan : List GOAPAction) : Nat :=
  plan.foldl (fun total a => total + baseTime a.executionType) 0

/-- Model of `GOAPPlanner.canRunInParallel` (line 246-257). -/
def GOAPPlanner.canRunInParallel (_ : GOAPPlanner) (action1 action2 : GOAPAction) : Bool :=
  let effects1 := action1.effects.map Prod.fst
  let effects2 := action2.effects.map Prod.fst
  let preconditions1 := action1.preconditions.map Prod.fst
  let preconditions2 := action2.preconditions.map Prod.fst
  !(effects1.any fun k => preconditions2.contains k) &&
  !(effects2.any fun k => preconditions1.contains k) &&
  !(effects1.any fun k => effects2.contains k)

/-- The grouping loop of `findParallelizableActions` (line 223-242),
threading the current group and the collected groups. -/
def parallelLoop (pl : GOAPPlanner) :
    List GOAPAction → List GOAPAction → List (List GOAPAction) → List (List GOAPAction)
  | [], currentGroup, groups =>
    if currentGroup.length > 1 then groups ++ [currentGroup] else groups
  | a :: rest, currentGroup, groups =>
    if currentGroup.all (fun g => pl.canRunInParallel a g) && currentGroup.length < 3 then
      parallelLoop pl rest (currentGroup ++ [a]) groups
    else
      parallelLoop pl rest [a]
        (if currentGroup.length > 1 then groups ++ [currentGroup] else groups)

/-- Model of `GOAPPlanner.findParallelizableActions` (line 219-244). -/
def GOAPPlanner.findParallelizableActions (pl : GOAPPlanner) (plan : List GOAPAction) :
    List (List GOAPAction) :=
  parallelLoop pl plan [] []

/-- The record returned by `analyzePlan` (line 210-216). -/
structure PlanAnalysis where
  totalCost : Nat
  actionCount : Nat
  executionTypes : List String
  parallelizable : List (List GOAPAction)
  estimatedTime : Nat
deriving DecidableEq, Repr

/-- Model of `GOAPPlanner.analyzePlan` (line 205-217). -/
def GOAPPlanner.analyzePlan (pl : GOAPPlanner) (plan : List GOAPAction) : PlanAnalysis :=
  ⟨plan.foldl (fun sum a => sum + a.cost) 0,
   plan.length,
   plan.map (·.executionType),
   pl.findParallelizableActions plan,
   pl.estimateExecutionTime plan⟩

/-- An execution-history entry (pushed at src/goap-planner.js:385-390,
397-402 and 417-422): the step index (`none` for the `'replan'` marker
entries, whose `step` field is the string `'replan'`), the action name,
and the error message when the entry records a failure.  The `result`
payload and the wall-clock `timestamp` are never read by the loop and
are omitted. -/
structure HistoryEntry where
  step : Option Nat
  action : String
  error : Option String
deriving DecidableEq, Repr

/-- Model of `OODALoop` state (src/goap-planner.js:272-281): the current plan
(`null` before one is installed), the 0-based step index, the live and
goal world states, the append-only history, and the monitoring flag. -/
structure OODAState where
  currentPlan : Option (List GOAPAction)
  currentStep : Nat
  worldState : GOAPState
  goalState : GOAPState
  executionHistory : List HistoryEntry
  monitoring : Bool
deriving Repr

/-- Model of `OODALoop.detectAnomalies` (line 429-441): if the last history entry
carries a truthy error, report a single `Action failure` anomaly.  The
source test is `if (lastExecution.error)`, a JS truthiness check on the
recorded `error.message` string: an absent field (`none`, success
entries) and the empty string are both falsy, so an executor throw
whose message is `""` reports no anomaly. -/
def OODALoop.detectAnomalies (history : List HistoryEntry) : List String :=
  match history.getLast? with
  | none => []
  | some lastExecution =>
    match lastExecution.error with
    | some msg =>
      if msg = "" then [] else ["Action failure: " ++ lastExecution.action]
    | none => []

/-- Model of `OODALoop.hasStateChangedUnexpectedly` (line 443-449): `false` at
step 0, otherwise a simulated 10%-chance random hit — the outcome of
`Math.random() < 0.1` is the `randomHit` argument. -/
def OODALoop.hasStateChangedUnexpectedly (loop : OODAState) (randomHit : Bool) : Bool :=
  if loop.currentStep == 0 then false else randomHit

/-- Model of `OODALoop.isPlanStillValid` (line 451-465): `false` when there is no
plan or the step index has reached the plan length, otherwise every
remaining action must be applicable in the live world state. -/
def OODALoop.isPlanStillValid (loop : OODAState) : Bool :=
  match loop.currentPlan with
  | none => false
  | some plan =>
    if loop.currentStep ≥ plan.length then false
    else (plan.drop loop.currentStep).all fun action => action.isApplicable loop.worldState

/-- Model of `OODALoop.isGoalStillReachable` (line 467-471): run `generatePlan`
from the live state and test the result against `null`.  The throwing
outcome cannot occur (the search never throws); it is mapped to
`false`. -/
def OODALoop.isGoalStillReachable (planner : GOAPPlanner) (loop : OODAState) : Bool :=
  match planner.generatePlan loop.worldState loop.goalState with
  | .ok (some _) => true
  | .ok none => false
  | .error _ => false

/-- The analysis record built by `orient` (line 304-322). -/
structure OrientAnalysis where
  stateChanged : Bool
  planValid : Bool
  goalReachable : Bool
  needsReplanning : Bool
deriving DecidableEq, Repr

/-- Model of `OODALoop.orient` (line 304-322): combine the unexpected-change
check, plan validity, goal reachability and the observed anomalies
(computed by `observe` from the history, line 294) into
`needsReplanning`. -/
def OODALoop.orient (planner : GOAPPlanner) (loop : OODAState) (randomHit : Bool) :
    OrientAnalysis :=
  let stateChanged := OODALoop.hasStateChangedUnexpectedly loop randomHit
  let planValid := OODALoop.isPlanStillValid loop
  let goalReachable := OODALoop.isGoalStillReachable planner loop
  let anomalies := OODALoop.detectAnomalies loop.executionHistory
  ⟨stateChanged, planValid, goalReachable,
   stateChanged || !planValid || !goalReachable || decide (anomalies.length > 0)⟩

/-- Model of `OODALoop.decide` (line 327-348): `'replan'` when replanning is
needed, else `'complete'` when the step index has reached the plan
length, else `'continue'`.  Reading `this.currentPlan.length` with a
`null` plan throws a `TypeError`, modelled as the `Except.error`
outcome. -/
def OODALoop.decide (loop : OODAState) (analysis : OrientAnalysis) : Except String String :=
  if analysis.needsReplanning then
    .ok "replan"
  else
    match loop.currentPlan with
    | none => .error "TypeError: this.currentPlan is null"
    | some plan =>
      if loop.currentStep ≥ plan.length then .ok "complete" else .ok "continue"

/-- Model of `OODALoop.executeNextAction` (line 370-404).  The outcome of the
asynchronous `action.execute` call is the `execResult` argument (the
real executors perform timers and console output; only success versus a
thrown message feeds back into the loop).  On success the live state
advances via `apply` and the step index increments; a throw from
`execute` or from `apply` is caught and recorded as a history entry
carrying the action name and the message, everything else untouched.
Reading `this.currentPlan.length` with a `null` plan throws
(uncaught — it happens before the `try`), modelled as `Except.error`. -/
def OODALoop.executeNextAction (loop : OODAState) (execResult : Except String Unit) :
    Except String OODAState :=
  match loop.currentPlan with
  | none => .error "TypeError: this.currentPlan is null"
  | some plan =>
    match plan.get? loop.currentStep with
    | none => .ok loop
    | some action =>
      match execResult with
      | .ok _ =>
        match action.apply loop.worldState with
        | .ok newWorld =>
          .ok { loop with
                worldState := newWorld,
                executionHistory :=
                  loop.executionHistory ++ [⟨some loop.currentStep, action.name, none⟩],
                currentStep := loop.currentStep + 1 }
        | .error e =>
          .ok { loop with
                executionHistory :=
                  loop.executionHistory ++ [⟨some loop.currentStep, action.name, some e⟩] }
      | .error e =>
        .ok { loop with
              executionHistory :=
                loop.executionHistory ++ [⟨some loop.currentStep, action.name, some e⟩] }

/-- Model of `OODALoop.replan` (line 406-427): generate a plan from the live
state; on success (any non-null plan, the empty plan included) install
it, reset the step index and push the `'replan'` marker entry; on
`null` stop monitoring. -/
def OODALoop.replan (planner : GOAPPlanner) (loop : OODAState) : Except String OODAState :=
  match planner.generatePlan loop.worldState loop.goalState with
  | .error e => .error e
  | .ok (some newPlan) =>
    .ok { loop with
          currentPlan := some newPlan,
          currentStep := 0,
          executionHistory := loop.executionHistory ++ [⟨none, "plan_updated", none⟩] }
  | .ok none =>
    .ok { loop with monitoring := false }

/-!
Store-passing model of `generatePlan`, used to state the frame property
"the search never mutates its argument states".  JS `GOAPState` objects
live on a heap and are passed by reference; the pure model above cannot
express in-place mutation, so here the heap is explicit: a `Heap` is
the list of all allocated state objects (each one the entry list of its
`Map`), a state is a reference (index) into it, `clone` allocates a
fresh object at the end, and `Map.set` overwrites the referenced slot
in place.  Every read-only operation reuses the pure `GOAPState`
functions on the dereferenced value.
-/

/-- The store of allocated `GOAPState` objects. -/
abbrev Heap : Type := List (List (String × Bool))

/-- Dereference: the entries of the state object at `r` (a dangling
reference, which the search never creates, reads as empty). -/
def heapGet (h : Heap) (r : Nat) : GOAPState :=
  ⟨(List.get? h r).getD []⟩

/-- Model of `GOAPState.clone` on the heap: allocate a fresh object holding the
same entries, returning its reference. -/
def heapClone (h : Heap) (r : Nat) : Nat × Heap :=
  (List.length h, h ++ [(heapGet h r).entries])

/-- In-place `this.state.set(key, value)` on the object at `r`. -/
def heapSet (h : Heap) (r : Nat) (key : String) (value : Bool) : Heap :=
  List.set h r (mapSet (heapGet h r).entries key value)

/-- Model of `GOAPState.applyEffects` on the heap: clone, then `set` every effect
entry on the freshly allocated clone. -/
def heapApplyEffects (h : Heap) (r : Nat) (effects : List (String × Bool)) : Nat × Heap :=
  let c := heapClone h r
  (c.1, effects.foldl (fun hh kv => heapSet hh c.1 kv.1 kv.2) c.2)

/-- A search node of the heap model: as `GOAPNode`, but the state is a
reference into the heap. -/
inductive HeapNode where
  | mk (stateRef : Nat) (action : Option GOAPAction) (parent : Option HeapNode)
      (cost : Nat) (heuristic : Nat) (totalCost : Nat)

def HeapNode.stateRef : HeapNode → Nat
  | ⟨r, _, _, _, _, _⟩ => r

def HeapNode.cost : HeapNode → Nat
  | ⟨_, _, _, c, _, _⟩ => c

def HeapNode.totalCost : HeapNode → Nat
  | ⟨_, _, _, _, _, t⟩ => t

def HeapNode.getPath : HeapNode → List GOAPAction
  | ⟨_, a, parent, _, _, _⟩ =>
    match parent with
    | none => []
    | some p => p.getPath ++ a.toList

/-- Stable insertion sort of heap nodes by ascending `totalCost`,
mirroring `sortByTotalCost`. -/
def insertHeapNode (n : HeapNode) : List HeapNode → List HeapNode
  | [] => [n]
  | m :: rest =>
    if m.totalCost ≤ n.totalCost then m :: insertHeapNode n rest else n :: m :: rest

def sortHeapNodes (l : List HeapNode) : List HeapNode :=
  l.foldl (fun acc n => insertHeapNode n acc) []

/-- Successor generation (src/goap-planner.js:182-195) on the heap: for
each applicable action `action.apply` clones the dequeued node's state
and mutates only the clone; the inapplicable-action throw cannot fire
under the `isApplicable` guard.  As in the source, the clone is
allocated before the cost-cap check prunes the candidate. -/
def heapExpandNode (actions : List GOAPAction) (current : HeapNode) (goalRef : Nat)
    (maxDepth : Nat) (h : Heap) : List HeapNode × Heap :=
  match actions with
  | [] => ([], h)
  | a :: rest =>
    if a.isApplicable (heapGet h current.stateRef) then
      let applied := heapApplyEffects h current.stateRef a.effects
      let newCost := current.cost + a.cost
      if maxDepth < newCost then
        heapExpandNode rest current goalRef maxDepth applied.2
      else
        let hval := (heapGet applied.2 applied.1).getDistance (heapGet applied.2 goalRef)
        let tail := heapExpandNode rest current goalRef maxDepth applied.2
        (⟨applied.1, some a, some current, newCost, hval, newCost + hval⟩ :: tail.1, tail.2)
    else
      heapExpandNode rest current goalRef maxDepth h

/-- The search loop (src/goap-planner.js:161-196) on the heap. -/
def heapSearchLoop (planner : GOAPPlanner) (goalRef : Nat) :
    List HeapNode → List String → Heap → Nat → Option (List GOAPAction) × Heap
  | _, _, h, 0 => (none, h)
  | openSet, closedSet, h, fuel + 1 =>
    match sortHeapNodes openSet with
    | [] => (none, h)
    | current :: rest =>
      if (heapGet h current.stateRef).satisfies (heapGet h goalRef).entries then
        (some current.getPath, h)
      else
        let stateKey := (heapGet h current.stateRef).toString
        if closedSet.contains stateKey then
          heapSearchLoop planner goalRef rest closedSet h fuel
        else
          let expanded := heapExpandNode planner.actions current goalRef planner.maxSearchDepth h
          heapSearchLoop planner goalRef (rest ++ expanded.1) (stateKey :: closedSet)
            expanded.2 fuel

/-- Model of `GOAPPlanner.generatePlan` on the heap: the caller's start and goal
state objects are the slots `startRef` and `goalRef` of the entry heap;
the root node aliases `startRef` directly (line 152 stores the argument
itself, no copy). -/
def heapGeneratePlan (planner : GOAPPlanner) (h : Heap) (startRef goalRef : Nat) :
    Option (List GOAPAction) × Heap :=
  let hval := (heapGet h startRef).getDistance (heapGet h goalRef)
  heapSearchLoop planner goalRef [⟨startRef, none, none, 0, hval, hval⟩] [] h 1000

/-!
Helper lemmas about the search.
-/

/-- Folding the actions' effects over a start state in plan order — the
state the spec's soundness property evaluates a plan on. -/
def pathState (start : GOAPState) (plan : List GOAPAction) : GOAPState :=
  plan.foldl (fun s a => s.applyEffects a.effects) start

lemma pathState_concat (start : GOAPState) (plan : List GOAPAction) (a : GOAPAction) :
    pathState start (plan ++ [a]) = (pathState start plan).applyEffects a.effects := by
  simp [pathState]

lemma GOAPNode.state_mk (s : GOAPState) (a : Option GOAPAction) (p : Option GOAPNode)
    (c h t : Nat) : (GOAPNode.mk s a p c h t).state = s := rfl

lemma GOAPNode.getPath_child (s : GOAPState) (a : GOAPAction) (p : GOAPNode) (c h t : Nat) :
    (GOAPNode.mk s (some a) (some p) c h t).getPath = p.getPath ++ [a] := by
  simp [GOAPNode.getPath]

lemma apply_of_applicable {a : GOAPAction} {s : GOAPState} (h : a.isApplicable s = true) :
    a.apply s = .ok (s.applyEffects a.effects) := by
  simp [GOAPAction.apply, h]

lemma insertNode_perm (n : GOAPNode) (l : List GOAPNode) :
    List.Perm (insertNode n l) (n :: l) := by
  induction l with
  | nil => simp [insertNode]
  | cons m rest ih =>
    by_cases h : m.totalCost ≤ n.totalCost
    · simp only [insertNode, if_pos h]
      exact ((ih.cons m).trans (List.Perm.swap n m rest))
    · simp [insertNode, if_neg h]

lemma foldl_insertNode_perm (l acc : List GOAPNode) :
    List.Perm (l.foldl (fun acc n => insertNode n acc) acc) (acc ++ l) := by
  induction l generalizing acc with
  | nil => simp
  | cons n rest ih =>
    have h1 := ih (insertNode n acc)
    have h2 : List.Perm (insertNode n acc ++ rest) ((n :: acc) ++ rest) :=
      List.Perm.append_right rest (insertNode_perm n acc)
    have h3 : List.Perm ((n :: acc) ++ rest) (acc ++ n :: rest) := List.perm_middle.symm
    exact (h1.trans h2).trans h3

lemma sortByTotalCost_perm (l : List GOAPNode) : List.Perm (sortByTotalCost l) l := by
  simpa [sortByTotalCost] using foldl_insertNode_perm l []

/-- Successor nodes reach exactly the fold of their path's effects:
`expandNode` never throws, and every generated node's state is the
`pathState` of its reconstructed path. -/
lemma expandNode_spec (start : GOAPState) (acts : List GOAPAction) (cur : GOAPNode)
    (goal : GOAPState) (d : Nat) (hcur : cur.state = pathState start cur.getPath) :
    ∃ l, expandNode acts cur goal d = .ok l ∧
      ∀ n ∈ l, n.state = pathState start n.getPath := by
  induction acts with
  | nil => exact ⟨[], rfl, by simp⟩
  | cons a rest ih =>
    obtain ⟨l, hl, hinv⟩ := ih
    by_cases hap : a.isApplicable cur.state = true
    · by_cases hcost : d < cur.cost + a.cost
      · exact ⟨l, by simp [expandNode, hap, apply_of_applicable hap, hcost, hl], hinv⟩
      · refine ⟨⟨cur.state.applyEffects a.effects, some a, some cur, cur.cost + a.cost,
          (cur.state.applyEffects a.effects).getDistance goal,
          cur.cost + a.cost + (cur.state.applyEffects a.effects).getDistance goal⟩ :: l,
          by simp [expandNode, hap, apply_of_applicable hap, hcost, hl], ?_⟩
        intro n hn
        rcases List.mem_cons.mp hn with h | h
        · subst h
          rw [GOAPNode.state_mk, GOAPNode.getPath_child, pathState_concat, hcur]
        · exact hinv n h
    · exact ⟨l, by simp [expandNode, hap, hl], hinv⟩

/-- Main search invariant: when every open node's state is the fold of
its path from `start`, the loop never throws, and a returned plan's
fold from `start` satisfies the goal. -/
lemma searchLoop_spec (planner : GOAPPlanner) (goal start : GOAPState) :
    ∀ (fuel : Nat) (openSet : List GOAPNode) (closedSet : List String),
      (∀ n ∈ openSet, n.state = pathState start n.getPath) →
      ∃ r, searchLoop planner goal openSet closedSet fuel = .ok r ∧
        ∀ plan, r = some plan → (pathState start plan).satisfies goal.entries = true := by
  intro fuel
  induction fuel with
  | zero => exact fun _ _ _ => ⟨none, rfl, by simp⟩
  | succ fuel ih =>
    intro openSet closedSet hinv
    rcases hsort : sortByTotalCost openSet with _ | ⟨current, rest⟩
    · exact ⟨none, by simp [searchLoop, hsort], by simp⟩
    · have hmem : ∀ n ∈ current :: rest, n.state = pathState start n.getPath := fun n hn =>
        hinv n (((sortByTotalCost_perm openSet).mem_iff).mp (hsort ▸ hn))
      by_cases hgoal : current.state.satisfies goal.entries = true
      · refine ⟨some current.getPath, by simp [searchLoop, hsort, hgoal], ?_⟩
        intro plan hp
        cases hp
        rw [← hmem current (List.mem_cons_self current rest)]
        exact hgoal
      · by_cases hclosed : current.state.toString ∈ closedSet
        · obtain ⟨r, hr, hs⟩ := ih rest closedSet
            (fun n hn => hmem n (List.mem_cons_of_mem current hn))
          exact ⟨r, by simp [searchLoop, hsort, hgoal, hclosed, hr], hs⟩
        · obtain ⟨l, hl, hlinv⟩ := expandNode_spec start planner.actions current goal
            planner.maxSearchDepth (hmem current (List.mem_cons_self current rest))
          have hinv' : ∀ n ∈ rest ++ l, n.state = pathState start n.getPath := by
            intro n hn
            rcases List.mem_append.mp hn with h | h
            · exact hmem n (List.mem_cons_of_mem current h)
            · exact hlinv n h
          obtain ⟨r, hr, hs⟩ := ih (rest ++ l) (current.state.toString :: closedSet) hinv'
          exact ⟨r, by simp [searchLoop, hsort, hgoal, hclosed, hl, hr], hs⟩

/-!
The deployment scenarios of the spec (testable properties, Scenario A
and Scenario B), used as concrete instances.
-/

def createA : GOAPAction := ⟨"create", [], [("exists", true)], 1, "code"⟩

def codeA : GOAPAction := ⟨"code", [("exists", true)], [("coded", true)], 3, "code"⟩

def deployA : GOAPAction := ⟨"deploy", [("coded", true)], [("deployed", true)], 2, "code"⟩

def quickA : GOAPAction := ⟨"quickdeploy", [("coded", true)], [("deployed", true)], 1, "code"⟩

/-- Scenario A repertoire: `create`, `code`, `deploy`, registered in
this order. -/
def plannerA : GOAPPlanner :=
  ((GOAPPlanner.new.addAction createA).addAction codeA).addAction deployA

/-- Scenario B repertoire: Scenario A plus `quickdeploy`. -/
def plannerB : GOAPPlanner :=
  plannerA.addAction quickA

/-- A one-action repertoire, used for concrete OODA-loop states. -/
def plannerSingle : GOAPPlanner :=
  GOAPPlanner.new.addAction createA

/-- C1: Plan soundness — whenever `generatePlan(start, goal)` returns a
non-null plan, folding the actions' effects (`applyEffects`) in plan
order over `start` yields a state on which `satisfies` of the goal's
propositions is true. -/
theorem generatePlan_sound (planner : GOAPPlanner) (start goal : GOAPState)
    (plan : List GOAPAction)
    (h : planner.generatePlan start goal = .ok (some plan)) :
    (pathState start plan).satisfies goal.entries = true := by
  obtain ⟨r, hr, hs⟩ := searchLoop_spec planner goal start 1000
    [⟨start, none, none, 0, start.getDistance goal, start.getDistance goal⟩] []
    (by intro n hn; rw [List.mem_singleton] at hn; subst hn; rfl)
  simp only [GOAPPlanner.generatePlan] at h
  rw [hr] at h
  cases h
  exact hs plan rfl

/-- Witness for C1 at Scenario A: the returned plan
`[create, code, deploy]` folds from the empty start state to a state
satisfying `{deployed: true}`. -/
theorem generatePlan_sound_witness :
    (pathState ⟨[]⟩ [createA, codeA, deployA]).satisfies
      (GOAPState.mk [("deployed", true)]).entries = true :=
  generatePlan_sound plannerA ⟨[]⟩ ⟨[("deployed", true)]⟩ [createA, codeA, deployA] (by rfl)

/-- C4: No-plan behaviour — `generatePlan` never throws: for all inputs
it returns `Except.ok`, and the result is either `null` or a plan whose
effect-fold from the start state satisfies the goal, never a partial or
goal-violating plan. -/
theorem generatePlan_never_throws (planner : GOAPPlanner) (start goal : GOAPState) :
    ∃ r, planner.generatePlan start goal = .ok r ∧
      (r = none ∨ ∃ plan, r = some plan ∧
        (pathState start plan).satisfies goal.entries = true) := by
  obtain ⟨r, hr, hs⟩ := searchLoop_spec planner goal start 1000
    [⟨start, none, none, 0, start.getDistance goal, start.getDistance goal⟩] []
    (by intro n hn; rw [List.mem_singleton] at hn; subst hn; rfl)
  refine ⟨r, by simpa only [GOAPPlanner.generatePlan] using hr, ?_⟩
  cases r with
  | none => exact Or.inl rfl
  | some plan => exact Or.inr ⟨plan, rfl, hs plan rfl⟩

/-- C5: Scenario B — with `create`, `code`, `deploy`, `quickdeploy`
registered, the plan from the empty start to `{deployed: true}` is
exactly `[create, code, quickdeploy]` with total cost 5, not the cost-6
path ending in `deploy`. -/
theorem scenarioB_prefers_quickdeploy :
    plannerB.generatePlan ⟨[]⟩ ⟨[("deployed", true)]⟩
      = .ok (some [createA, codeA, quickA]) ∧
    (plannerB.analyzePlan [createA, codeA, quickA]).totalCost = 5 ∧
    [createA, codeA, quickA] ≠ [createA, codeA, deployA] :=
  ⟨by rfl, by rfl, by decide⟩

/-- C9: Already-satisfied goal — whenever the start state satisfies
every goal proposition, `generatePlan` returns the empty plan (not
null), for every action repertoire. -/
theorem generatePlan_empty_plan_when_satisfied (planner : GOAPPlanner)
    (start goal : GOAPState) (h : start.satisfies goal.entries = true) :
    planner.generatePlan start goal = .ok (some []) := by
  show searchLoop planner goal
    [⟨start, none, none, 0, start.getDistance goal, start.getDistance goal⟩] [] 1000
    = .ok (some [])
  rw [show (1000 : Nat) = 999 + 1 from rfl]
  simp [searchLoop, sortByTotalCost, insertNode, GOAPNode.state, GOAPNode.getPath, h]

/-- Witness for C9: with an empty repertoire and `start = goal =
{x: true}`, the planner returns the empty plan. -/
theorem generatePlan_empty_plan_when_satisfied_witness :
    GOAPPlanner.new.generatePlan ⟨[("x", true)]⟩ ⟨[("x", true)]⟩ = .ok (some []) :=
  generatePlan_empty_plan_when_satisfied GOAPPlanner.new ⟨[("x", true)]⟩ ⟨[("x", true)]⟩
    (by decide)

lemma lookup_mapSet (es : List (String × Bool)) (k : String) (v : Bool) :
    (mapSet es k v).lookup k = some v := by
  induction es with
  | nil => simp [mapSet, List.lookup]
  | cons kv rest ih =>
    by_cases h : kv.1 = k
    · simp [mapSet, h, List.lookup]
    · have hbeq : (k == kv.1) = false := by
        simpa using fun he => h he.symm
      simp [mapSet, h, List.lookup, hbeq, ih]

/-- C2 counterexample: `set` does not leave the receiver unchanged — on
the empty state, `set("a", true)` leaves the receiver holding
`{a: true}`, so no fresh state is returned with the original intact
(the JS method mutates `this` and returns `undefined`). -/
theorem set_purity_counterexample :
    GOAPState.set ⟨[]⟩ "a" true ≠ (⟨[]⟩ : GOAPState) := by
  decide

/-- C2 (amended): `set(k, v)` mutates the receiver in place (the JS
method returns `undefined`); after the call the receiver reads back `v`
at `k`, for every state, key and boolean value. -/
theorem set_mutating_roundtrip (s : GOAPState) (k : String) (v : Bool) :
    (s.set k v).get k = v := by
  simp [GOAPState.set, GOAPState.get, lookup_mapSet]

/-- C3 counterexample: two states holding the same proposition-to-value
mapping (a permutation of each other's entries, pointwise equal under
`get`) whose insertion orders differ serialize to different strings, so
`toString` is not canonical across insertion order. -/
theorem toStr_order_counterexample :
    List.Perm (GOAPState.mk [("a", true), ("b", true)]).entries
      (GOAPState.mk [("b", true), ("a", true)]).entries ∧
    (∀ k, (GOAPState.mk [("a", true), ("b", true)]).get k
      = (GOAPState.mk [("b", true), ("a", true)]).get k) ∧
    (GOAPState.mk [("a", true), ("b", true)]).toString
      ≠ (GOAPState.mk [("b", true), ("a", true)]).toString := by
  refine ⟨List.Perm.swap _ _ _, ?_, by decide⟩
  intro k
  by_cases h1 : k = "a"
  · subst h1; decide
  · by_cases h2 : k = "b"
    · subst h2; decide
    · have b1 : (k == "a") = false := by simpa using h1
      have b2 : (k == "b") = false := by simpa using h2
      simp [GOAPState.get, List.lookup, b1, b2]

/-- C3 (amended): the visited-set key `toString` is a function of the
entry sequence alone — two states whose entries were inserted in the
same order with the same values serialize identically — but it is not
canonical: value-identical states with different insertion order can
serialize differently. -/
theorem toStr_insertion_order_sensitive :
    (∀ s1 s2 : GOAPState, s1.entries = s2.entries → s1.toString = s2.toString) ∧
    (∃ s1 s2 : GOAPState, List.Perm s1.entries s2.entries ∧ s1.toString ≠ s2.toString) := by
  constructor
  · intro s1 s2 h
    cases s1
    cases s2
    cases h
    rfl
  · exact ⟨⟨[("p", true), ("q", true)]⟩, ⟨[("q", true), ("p", true)]⟩, by decide, by decide⟩

lemma foldl_baseTime (plan : List GOAPAction) (n : Nat) :
    plan.foldl (fun total a => total + baseTime a.executionType) n
      = n + (plan.map fun a => baseTime a.executionType).sum := by
  induction plan generalizing n with
  | nil => simp
  | cons a rest ih => simp [ih, Nat.add_assoc]

/-- C8 counterexample: the duration table does not satisfy the claimed
`code < hybrid < llm` ordering — a one-action `hybrid` plan is estimated
at 250, above the 200 of a one-action `llm` plan. -/
theorem duration_order_counterexample :
    GOAPPlanner.new.estimateExecutionTime [⟨"h1", [], [], 1, "hybrid"⟩] = 250 ∧
    GOAPPlanner.new.estimateExecutionTime [⟨"l1", [], [], 1, "llm"⟩] = 200 ∧
    ¬ GOAPPlanner.new.estimateExecutionTime [⟨"h1", [], [], 1, "hybrid"⟩]
        < GOAPPlanner.new.estimateExecutionTime [⟨"l1", [], [], 1, "llm"⟩] := by
  refine ⟨by decide, by decide, by decide⟩

/-- C8 (amended): `analyzePlan`'s estimated execution time is the sum
over the plan of the fixed per-strategy base duration, and the table
satisfies `code (100) < llm (200) < hybrid (250)` — deterministic below
reasoning-based below combined. -/
theorem analyzePlan_estimated_time (pl : GOAPPlanner) (plan : List GOAPAction) :
    (pl.analyzePlan plan).estimatedTime
      = (plan.map fun a => baseTime a.executionType).sum ∧
    baseTime "code" < baseTime "llm" ∧ baseTime "llm" < baseTime "hybrid" := by
  refine ⟨?_, by decide, by decide⟩
  simp [GOAPPlanner.analyzePlan, GOAPPlanner.estimateExecutionTime, foldl_baseTime]

/-- The OODA loop state after the single-action plan `[create]` has
executed successfully: step index 1 equals the plan length, the last
history entry carries no error, and the live state satisfies the goal
`{exists: true}`. -/
def loopDone : OODAState :=
  ⟨some [createA], 1, ⟨[("exists", true)]⟩, ⟨[("exists", true)]⟩,
   [⟨some 0, "create", none⟩], true⟩

/-- C6: evaluation of the code at the failing input.  With every action
of the plan executed successfully and no unexpected state change,
`isPlanStillValid` returns `false` (its first guard fires on
`currentStep >= currentPlan.length`), hence `needsReplanning` is `true`
and `decide` returns `'replan'` — the `'complete'` decision claimed by
the spec is not reached. -/
theorem ooda_completion_divergence :
    OODALoop.isPlanStillValid loopDone = false ∧
    OODALoop.detectAnomalies loopDone.executionHistory = [] ∧
    OODALoop.hasStateChangedUnexpectedly loopDone false = false ∧
    (OODALoop.orient plannerSingle loopDone false).needsReplanning = true ∧
    OODALoop.decide loopDone (OODALoop.orient plannerSingle loopDone false)
      = .ok "replan" := by
  exact ⟨rfl, rfl, rfl, rfl, rfl⟩

/-- C7 (amended): Execution-failure semantics — when the executor of the
action at the current step throws with a non-empty message `e`,
`executeNextAction` appends a history entry carrying the action name
and the message, leaves the live world state, the step index and the
monitoring flag unchanged (the loop is not aborted), and the next
Orient phase observes the anomaly so that `needsReplanning` is `true`
and the next Decide returns `'replan'`.  The non-emptiness of the
message is required: `detectAnomalies` tests the recorded message for
JS truthiness, so an empty-message throw goes unobserved. -/
theorem execution_failure_triggers_replan (loop : OODAState) (plan : List GOAPAction)
    (action : GOAPAction) (e : String) (planner : GOAPPlanner) (randomHit : Bool)
    (hplan : loop.currentPlan = some plan)
    (hstep : plan.get? loop.currentStep = some action)
    (hmsg : e ≠ "") :
    OODALoop.executeNextAction loop (.error e)
      = .ok { loop with executionHistory :=
          loop.executionHistory ++ [⟨some loop.currentStep, action.name, some e⟩] } ∧
    ({ loop with executionHistory :=
        loop.executionHistory ++ [⟨some loop.currentStep, action.name, some e⟩]
      : OODAState }).worldState = loop.worldState ∧
    ({ loop with executionHistory :=
        loop.executionHistory ++ [⟨some loop.currentStep, action.name, some e⟩]
      : OODAState }).currentStep = loop.currentStep ∧
    ({ loop with executionHistory :=
        loop.executionHistory ++ [⟨some loop.currentStep, action.name, some e⟩]
      : OODAState }).monitoring = loop.monitoring ∧
    OODALoop.decide
      { loop with executionHistory :=
          loop.executionHistory ++ [⟨some loop.currentStep, action.name, some e⟩] }
      (OODALoop.orient planner
        { loop with executionHistory :=
            loop.executionHistory ++ [⟨some loop.currentStep, action.name, some e⟩] }
        randomHit)
      = .ok "replan" := by
  have hano : OODALoop.detectAnomalies
      (loop.executionHistory ++ [⟨some loop.currentStep, action.name, some e⟩])
      = ["Action failure: " ++ action.name] := by
    simp [OODALoop.detectAnomalies, List.getLast?_concat, hmsg]
  have hneeds : (OODALoop.orient planner
      { loop with executionHistory :=
          loop.executionHistory ++ [⟨some loop.currentStep, action.name, some e⟩] }
      randomHit).needsReplanning = true := by
    simp [OODALoop.orient, hano]
  have hstep' : plan[loop.currentStep]? = some action := by
    rw [← List.get?_eq_getElem?]
    exact hstep
  refine ⟨?_, rfl, rfl, rfl, ?_⟩
  · simp [OODALoop.executeNextAction, hplan, hstep']
  · simp [OODALoop.decide, hneeds]

/-- The OODA loop state about to execute the first action of the plan
`[create]`, used as the concrete instance for the failure semantics. -/
def loopFail : OODAState :=
  ⟨some [createA], 0, ⟨[]⟩, ⟨[("exists", true)]⟩, [], true⟩

/-- Witness for C7: concrete instance — the executor of `create` rejects
with `"executor rejected"`. -/
theorem execution_failure_triggers_replan_witness :
    OODALoop.executeNextAction loopFail (.error "executor rejected")
      = .ok { loopFail with executionHistory :=
          loopFail.executionHistory
            ++ [⟨some loopFail.currentStep, createA.name, some "executor rejected"⟩] } ∧
    ({ loopFail with executionHistory :=
        loopFail.executionHistory
          ++ [⟨some loopFail.currentStep, createA.name, some "executor rejected"⟩]
      : OODAState }).worldState = loopFail.worldState ∧
    ({ loopFail with executionHistory :=
        loopFail.executionHistory
          ++ [⟨some loopFail.currentStep, createA.name, some "executor rejected"⟩]
      : OODAState }).currentStep = loopFail.currentStep ∧
    ({ loopFail with executionHistory :=
        loopFail.executionHistory
          ++ [⟨some loopFail.currentStep, createA.name, some "executor rejected"⟩]
      : OODAState }).monitoring = loopFail.monitoring ∧
    OODALoop.decide
      { loopFail with executionHistory :=
          loopFail.executionHistory
            ++ [⟨some loopFail.currentStep, createA.name, some "executor rejected"⟩] }
      (OODALoop.orient plannerSingle
        { loopFail with executionHistory :=
            loopFail.executionHistory
              ++ [⟨some loopFail.currentStep, createA.name, some "executor rejected"⟩] }
        false)
      = .ok "replan" :=
  execution_failure_triggers_replan loopFail [createA] createA "executor rejected"
    plannerSingle false rfl rfl (by decide)

/-- C7 counterexample: for an executor throw whose message is the empty
string, the history entry is appended, but the program's
`if (lastExecution.error)` truthiness test sees a falsy message, so
Orient reports no anomaly, `needsReplanning` stays `false`, and the
next Decide returns `'continue'`, not the claimed `'replan'`. -/
theorem exec_failure_empty_message_counterexample :
    OODALoop.executeNextAction loopFail (.error "")
      = .ok { loopFail with executionHistory :=
          loopFail.executionHistory ++ [⟨some 0, "create", some ""⟩] } ∧
    OODALoop.decide
      { loopFail with executionHistory :=
          loopFail.executionHistory ++ [⟨some 0, "create", some ""⟩] }
      (OODALoop.orient plannerSingle
        { loopFail with executionHistory :=
            loopFail.executionHistory ++ [⟨some 0, "create", some ""⟩] }
        false)
      = .ok "continue" :=
  ⟨rfl, rfl⟩

/-- Frame relation on heaps: the second heap extends the first and every
object of the first is unchanged. -/
def heapPreserved (h h' : Heap) : Prop :=
  h.length ≤ h'.length ∧ ∀ i, i < h.length → h'.get? i = h.get? i

lemma heapPreserved_refl (h : Heap) : heapPreserved h h :=
  ⟨Nat.le_refl _, fun _ _ => rfl⟩

lemma heapPreserved_trans {h1 h2 h3 : Heap}
    (a : heapPreserved h1 h2) (b : heapPreserved h2 h3) : heapPreserved h1 h3 :=
  ⟨Nat.le_trans a.1 b.1, fun i hi => (b.2 i (Nat.lt_of_lt_of_le hi a.1)).trans (a.2 i hi)⟩

lemma foldl_heapSet_length (effects : List (String × Bool)) (hh : Heap) (r : Nat) :
    (effects.foldl (fun x kv => heapSet x r kv.1 kv.2) hh).length = hh.length := by
  induction effects generalizing hh with
  | nil => rfl
  | cons kv rest ih =>
    rw [List.foldl_cons, ih (heapSet hh r kv.1 kv.2)]
    simp [heapSet, List.length_set]

lemma foldl_heapSet_get? (effects : List (String × Bool)) (hh : Heap) (r i : Nat)
    (hir : i ≠ r) :
    (effects.foldl (fun x kv => heapSet x r kv.1 kv.2) hh).get? i = hh.get? i := by
  induction effects generalizing hh with
  | nil => rfl
  | cons kv rest ih =>
    rw [List.foldl_cons, ih (heapSet hh r kv.1 kv.2)]
    simp only [heapSet, List.get?_eq_getElem?]
    exact List.getElem?_set_ne (fun he => hir he.symm)

lemma heapApplyEffects_preserved (h : Heap) (r : Nat) (effects : List (String × Bool)) :
    heapPreserved h (heapApplyEffects h r effects).2 := by
  constructor
  · rw [show (heapApplyEffects h r effects).2
        = effects.foldl (fun x kv => heapSet x (List.length h) kv.1 kv.2)
            (h ++ [(heapGet h r).entries]) from rfl]
    rw [foldl_heapSet_length]
    simp
  · intro i hi
    rw [show (heapApplyEffects h r effects).2
        = effects.foldl (fun x kv => heapSet x (List.length h) kv.1 kv.2)
            (h ++ [(heapGet h r).entries]) from rfl]
    rw [foldl_heapSet_get? _ _ _ _ (Nat.ne_of_lt hi)]
    simp only [List.get?_eq_getElem?]
    exact List.getElem?_append_left hi

lemma heapExpandNode_preserved (acts : List GOAPAction) (cur : HeapNode)
    (goalRef maxDepth : Nat) :
    ∀ h : Heap, heapPreserved h (heapExpandNode acts cur goalRef maxDepth h).2 := by
  induction acts with
  | nil => exact fun h => heapPreserved_refl h
  | cons a rest ih =>
    intro h
    by_cases hap : a.isApplicable (heapGet h cur.stateRef) = true
    · have step := heapApplyEffects_preserved h cur.stateRef a.effects
      by_cases hcost : maxDepth < cur.cost + a.cost
      · simpa [heapExpandNode, hap, hcost] using
          heapPreserved_trans step (ih (heapApplyEffects h cur.stateRef a.effects).2)
      · simpa [heapExpandNode, hap, hcost] using
          heapPreserved_trans step (ih (heapApplyEffects h cur.stateRef a.effects).2)
    · simpa [heapExpandNode, hap] using ih h

lemma heapSearchLoop_preserved (planner : GOAPPlanner) (goalRef : Nat) :
    ∀ (fuel : Nat) (openSet : List HeapNode) (closedSet : List String) (h : Heap),
      heapPreserved h (heapSearchLoop planner goalRef openSet closedSet h fuel).2 := by
  intro fuel
  induction fuel with
  | zero => exact fun _ _ h => heapPreserved_refl h
  | succ fuel ih =>
    intro openSet closedSet h
    rcases hsort : sortHeapNodes openSet with _ | ⟨current, rest⟩
    · simpa [heapSearchLoop, hsort] using heapPreserved_refl h
    · by_cases hgoal :
        (heapGet h current.stateRef).satisfies (heapGet h goalRef).entries = true
      · simpa [heapSearchLoop, hsort, hgoal] using heapPreserved_refl h
      · by_cases hclosed : (heapGet h current.stateRef).toString ∈ closedSet
        · simpa [heapSearchLoop, hsort, hgoal, hclosed] using ih rest closedSet h
        · have step := heapExpandNode_preserved planner.actions current goalRef
            planner.maxSearchDepth h
          have tail := ih
            (rest ++ (heapExpandNode planner.actions current goalRef
              planner.maxSearchDepth h).1)
            ((heapGet h current.stateRef).toString :: closedSet)
            (heapExpandNode planner.actions current goalRef planner.maxSearchDepth h).2
          simpa [heapSearchLoop, hsort, hgoal, hclosed] using heapPreserved_trans step tail

/-- C10: `generatePlan` does not mutate its arguments — in the
store-passing model of the search, the caller's start and goal state
objects hold exactly the same proposition entries after the call as
before it: every `Map.set` performed by the search targets an object
freshly allocated by `clone` during the call. -/
theorem generatePlan_preserves_arguments (planner : GOAPPlanner) (h : Heap)
    (startRef goalRef : Nat) (hs : startRef < h.length) (hg : goalRef < h.length) :
    ((heapGeneratePlan planner h startRef goalRef).2).get? startRef = h.get? startRef ∧
    ((heapGeneratePlan planner h startRef goalRef).2).get? goalRef = h.get? goalRef := by
  obtain ⟨-, hp⟩ := heapSearchLoop_preserved planner goalRef 1000
    [⟨startRef, none, none, 0,
      (heapGet h startRef).getDistance (heapGet h goalRef),
      (heapGet h startRef).getDistance (heapGet h goalRef)⟩] [] h
  exact ⟨hp startRef hs, hp goalRef hg⟩

/-- Witness for C10: a two-object heap holding the start state `{}` at
slot 0 and the goal state `{exists: true}` at slot 1, searched with the
one-action repertoire; both slots are unchanged by the call. -/
theorem generatePlan_preserves_arguments_witness :
    ((heapGeneratePlan plannerSingle [[], [("exists", true)]] 0 1).2).get? 0
      = ([[], [("exists", true)]] : Heap).get? 0 ∧
    ((heapGeneratePlan plannerSingle [[], [("exists", true)]] 0 1).2).get? 1
      = ([[], [("exists", true)]] : Heap).get? 1 :=
  generatePlan_preserves_arguments plannerSingle [[], [("exists", true)]] 0 1
    (by decide) (by decide)
